import Mathlib

/-!
Verification development for the PCA-Kinematics repository
(Source/Create_Training_Data.py and Source/PCA_Kinematics.py).

The Python code is shallowly embedded:

* a vtk polydata surface becomes a `Mesh P`: an ordered list of points
  (point id = list position) plus a list of triangles (triples of point ids);
* `vtkIterativeClosestPointTransform` followed by `vtkTransformPolyDataFilter`
  is abstracted by an `IcpEngine`: `solve` computes the transform aligning a
  source mesh onto a target mesh, `applyPt` applies the found transform to a
  single point. `vtkTransformPolyDataFilter` maps every point of its input and
  keeps the connectivity, which is `transformMesh`;
* the mutable Python list-of-lists `polydata_list[label][i]` becomes a
  function state `BoneSet P` updated pointwise by `setBone`; the nested `for`
  loops of `onCompute` become `List.foldl` over the label list and over
  `List.range n` (n = number of subject files), in program order.
-/

namespace PCAKin

/-- A triangulated surface: ordered points plus triangles over point ids.
Mirrors vtkPolyData as used by the scripts (points + polygonal cells). -/
structure Mesh (P : Type) where
  points : List P
  tris : List (Nat × Nat × Nat)
deriving DecidableEq

/-- Abstract ICP engine: `solve source target` is the transform computed by
`vtkIterativeClosestPointTransform` (after `SetSource source; SetTarget target;
Update()`), and `applyPt t` is the action of that transform on one point. -/
structure IcpEngine (P Tr : Type) where
  solve : Mesh P → Mesh P → Tr
  applyPt : Tr → P → P

/-- vtkTransformPolyDataFilter: transform every point, keep the cells. -/
def transformMesh {P Tr : Type} (E : IcpEngine P Tr) (t : Tr) (m : Mesh P) : Mesh P :=
  { points := m.points.map (E.applyPt t), tris := m.tris }

/-- Embedding of Create_Training_DataWidget.IterativeClosestPoint
(Create_Training_Data.py lines 825-889): the ICP transform is solved from
(source, target); it is applied to `reference` when a reference surface is
passed (the transformed reference is returned), otherwise it is applied to
the source itself (the transformed source is returned). -/
def IterativeClosestPoint {P Tr : Type} (E : IcpEngine P Tr)
    (source target : Mesh P) (reference : Option (Mesh P)) : Mesh P :=
  let icpT := E.solve source target
  match reference with
  | some r => transformMesh E icpT r
  | none => transformMesh E icpT source

/-- The working state `polydata_list[label][i]` of onCompute: bone label and
subject index to current mesh. -/
abbrev BoneSet (P : Type) := Nat → Nat → Mesh P

/-- Assignment `polydata_list[label][i] = m`. -/
def setBone {P : Type} (s : BoneSet P) (l i : Nat) (m : Mesh P) : BoneSet P :=
  fun l' i' => if l' = l ∧ i' = i then m else s l' i'

/-- One Pass-1 iteration (lines 691-694): register the captured reference
shape of `label` (source) onto the current `BoneSet[label][i]` (target) and
replace `BoneSet[label][i]` with the transformed source. -/
def pass1Step {P Tr : Type} (E : IcpEngine P Tr) (refShape : Mesh P) (label : Nat)
    (s : BoneSet P) (i : Nat) : BoneSet P :=
  setBone s label i (IterativeClosestPoint E refShape (s label i) none)

/-- Pass-1 inner loop over the subject indices for one label. -/
def pass1Row {P Tr : Type} (E : IcpEngine P Tr) (refShape : Mesh P) (label : Nat)
    (s : BoneSet P) (is : List Nat) : BoneSet P :=
  is.foldl (pass1Step E refShape label) s

/-- Pass 1 (lines 682-694): for each label, for each subject i, register the
label's reference shape onto subject i's extracted shape. `refShapes` is the
`reference_shapes` list captured from the pre-registration state (lines
668-676); the Python list holds aliases to the original polydata objects, so
later replacements of `polydata_list[label][0]` do not change it. -/
def pass1 {P Tr : Type} (E : IcpEngine P Tr) (labels : List Nat) (n : Nat)
    (refShapes : Nat → Mesh P) (s : BoneSet P) : BoneSet P :=
  labels.foldl (fun s label => pass1Row E (refShapes label) label s (List.range n)) s

/-- One Pass-2 iteration (lines 699-713): skip the reference label; otherwise
solve ICP with source `BoneSet[ref][i]` and target `BoneSet[ref][0]`, apply
the transform to the reference surface `BoneSet[label][i]`, and store the
transformed reference back into `BoneSet[label][i]`. -/
def pass2Step {P Tr : Type} (E : IcpEngine P Tr) (ref label : Nat)
    (s : BoneSet P) (i : Nat) : BoneSet P :=
  if label = ref then s
  else setBone s label i (IterativeClosestPoint E (s ref i) (s ref 0) (some (s label i)))

/-- Pass-2 inner loop over the subject indices for one label. -/
def pass2Row {P Tr : Type} (E : IcpEngine P Tr) (ref label : Nat)
    (s : BoneSet P) (is : List Nat) : BoneSet P :=
  is.foldl (pass2Step E ref label) s

/-- Pass 2 (lines 699-713): propagate each subject's reference-bone transform
onto every non-reference bone of that subject. -/
def pass2 {P Tr : Type} (E : IcpEngine P Tr) (labels : List Nat) (ref n : Nat)
    (s : BoneSet P) : BoneSet P :=
  labels.foldl (fun s label => pass2Row E ref label s (List.range n)) s

/-- One Pass-3 iteration (lines 716-717): register the reference bone itself,
subject by subject. -/
def pass3Step {P Tr : Type} (E : IcpEngine P Tr) (ref : Nat)
    (s : BoneSet P) (i : Nat) : BoneSet P :=
  setBone s ref i (IterativeClosestPoint E (s ref i) (s ref 0) (some (s ref i)))

/-- Pass 3 (lines 716-717). -/
def pass3 {P Tr : Type} (E : IcpEngine P Tr) (ref n : Nat) (s : BoneSet P) : BoneSet P :=
  (List.range n).foldl (pass3Step E ref) s

/-- The `reference_shapes` list (lines 668-676): the first subject's mesh of
each label, captured before any registration. -/
def referenceShapes {P : Type} (s : BoneSet P) : Nat → Mesh P :=
  fun label => s label 0

/-- State of `polydata_list` after Pass 1. -/
def pass1Result {P Tr : Type} (E : IcpEngine P Tr) (labels : List Nat) (n : Nat)
    (s0 : BoneSet P) : BoneSet P :=
  pass1 E labels n (referenceShapes s0) s0

/-- The registration protocol of onCompute in program order:
Pass 1, then Pass 2, then Pass 3 (lines 682-717). -/
def registerAll {P Tr : Type} (E : IcpEngine P Tr) (labels : List Nat) (ref n : Nat)
    (s0 : BoneSet P) : BoneSet P :=
  pass3 E ref n (pass2 E labels ref n (pass1Result E labels n s0))

/-- The registration protocol with Passes 2 and 3 exchanged (not what the code
does; used to show the exchange is observable). -/
def registerAllSwapped {P Tr : Type} (E : IcpEngine P Tr) (labels : List Nat) (ref n : Nat)
    (s0 : BoneSet P) : BoneSet P :=
  pass2 E labels ref n (pass3 E ref n (pass1Result E labels n s0))

/-- A one-point mesh over integer points, for concrete runs. -/
def ptMesh (x : Int) : Mesh Int :=
  { points := [x], tris := [] }

/-- A concrete translation-only ICP engine on integer one-point meshes: the
solved transform is the translation taking the source's first point onto the
target's first point. -/
def demoEngine : IcpEngine Int Int :=
  { solve := fun s t => t.points.headD 0 - s.points.headD 0,
    applyPt := fun tr p => p + tr }

/-- A concrete post-extraction state with labels {1, 2} and 2 subjects;
label 2 plays the reference bone. -/
def demoState : BoneSet Int := fun l i =>
  if l = 1 ∧ i = 0 then ptMesh 0
  else if l = 1 ∧ i = 1 then ptMesh 10
  else if l = 2 ∧ i = 0 then ptMesh 0
  else if l = 2 ∧ i = 1 then ptMesh 1
  else ptMesh 0

/-- Failure vocabulary the specification assigns to degenerate ICP inputs. -/
inductive IcpFailure where
  | insufficientGeometry
deriving DecidableEq

/-- The ICP wrapper viewed as a fallible operation. The Python body of
IterativeClosestPoint (lines 825-889) contains no raise statement and no
degeneracy test, so the embedding always returns a value. -/
def IterativeClosestPointE {P Tr : Type} (E : IcpEngine P Tr)
    (source target : Mesh P) (reference : Option (Mesh P)) :
    Except IcpFailure (Mesh P) :=
  Except.ok (IterativeClosestPoint E source target reference)

/-! ## The smoothing pipeline (Smooth_Surface, Create_Training_Data.py 891-940) -/

/-- Abstract mesh filters used by Smooth_Surface: vtkPolyDataNormals,
vtkCleanPolyData, vtkSmoothPolyDataFilter (with iteration count and
relaxation factor), vtkDecimatePro (with target reduction ratio). -/
structure MeshOps (M : Type) where
  computeNormals : M → M
  clean : M → M
  smooth : Int → Rat → M → M
  decimate : Rat → M → M

/-- Embedding of Smooth_Surface (lines 891-940): normals, clean, Laplacian
smoothing guarded by `smoothing_iterations > 0`, decimation guarded by
`0 < decimate_surface < 1`, clean again, normals again. -/
def Smooth_Surface {M : Type} (ops : MeshOps M) (smoothing_iterations : Int)
    (relaxation_factor decimate_surface : Rat) (surface : M) : M :=
  let polydata := ops.clean (ops.computeNormals surface)
  let polydata :=
    if smoothing_iterations > 0 then
      ops.smooth smoothing_iterations relaxation_factor polydata
    else polydata
  let polydata :=
    if decimate_surface > 0 ∧ decimate_surface < 1 then
      ops.decimate decimate_surface polydata
    else polydata
  ops.computeNormals (ops.clean polydata)

/-- Trace instantiation of the filters: the mesh state is the list of filter
names applied so far, and every filter appends its own name. -/
def traceOps : MeshOps (List String) :=
  { computeNormals := fun m => m ++ ["normals"],
    clean := fun m => m ++ ["clean"],
    smooth := fun _ _ m => m ++ ["smooth"],
    decimate := fun _ m => m ++ ["decimate"] }

/-! ## Natural (alphanumeric) filename sort (tryint / alphanum_key / sort)

Embedding of Create_Training_Data.py lines 498-510 and 530-534 and of the
identical pair of functions in PCA_Kinematics.py lines 734-746. Python's
re.split applied with the capturing pattern of one-or-more ASCII digits cuts
a string into an alternating list: a (possibly empty) non-digit chunk, then a
maximal digit run, then a non-digit chunk, and so on, ending with a (possibly
empty) non-digit chunk. tryint turns exactly the digit runs into ints.
list.sort(key=alphanum_key) then sorts by Python's elementwise list order. -/

/-- ASCII digit test, the character class of the splitting pattern. -/
def isDig (c : Char) : Bool := decide ('0' ≤ c) && decide (c ≤ '9')

/-- Value of int() on a run of ASCII digits. -/
def natOfDigits (ds : List Char) : Nat :=
  ds.foldl (fun n c => 10 * n + (c.toNat - 48)) 0

/-- One element of the list produced by alphanum_key: tryint leaves non-digit
chunks as strings and converts digit runs to ints. -/
inductive PyChunk where
  | str (s : List Char)
  | num (n : Nat)
deriving DecidableEq

/-- Fuel-indexed worker for the split. Each step peels the leading non-digit
chunk and the following maximal digit run; one unit of fuel is spent per
digit run, so fuel = length of the string is always enough. -/
def splitGo : Nat → List Char → List PyChunk
  | 0, cs => [PyChunk.str (cs.takeWhile (fun c => !(isDig c)))]
  | Nat.succ f, cs =>
    match cs.dropWhile (fun c => !(isDig c)) with
    | [] => [PyChunk.str (cs.takeWhile (fun c => !(isDig c)))]
    | r :: rs =>
      PyChunk.str (cs.takeWhile (fun c => !(isDig c))) ::
      PyChunk.num (natOfDigits ((r :: rs).takeWhile isDig)) ::
      splitGo f ((r :: rs).dropWhile isDig)

/-- alphanum_key on the character list of a filename: re.split into chunks,
then tryint on every chunk. -/
def alphanumKeyAux (cs : List Char) : List PyChunk :=
  splitGo cs.length cs

/-- alphanum_key (Create_Training_Data.py 505-510, PCA_Kinematics.py 741-746). -/
def alphanum_key (s : String) : List PyChunk :=
  alphanumKeyAux s.data

/-- Prepend one character to the leading string chunk of a key. -/
def strCons (c : Char) : List PyChunk → List PyChunk
  | PyChunk.str s :: r => PyChunk.str (c :: s) :: r
  | k => k

/-- Python string comparison: elementwise by code point. -/
def strLt : List Char → List Char → Bool
  | [], [] => false
  | [], _ :: _ => true
  | _ :: _, [] => false
  | a :: as, b :: bs => if a = b then strLt as bs else decide (a < b)

/-- Python comparison of two key elements. Elements of the same kind compare
as int or as str. Mixed positions never arise between two alphanum keys
(chunk kinds alternate in lockstep); the int-before-str convention of the
Python 2 used by the original Slicer module is taken for totality. -/
def chunkLt : PyChunk → PyChunk → Bool
  | PyChunk.num m, PyChunk.num n => decide (m < n)
  | PyChunk.str a, PyChunk.str b => strLt a b
  | PyChunk.num _, PyChunk.str _ => true
  | PyChunk.str _, PyChunk.num _ => false

/-- Python list comparison: walk to the first unequal position, compare
there; a strict prefix is smaller. -/
def pyListLt : List PyChunk → List PyChunk → Bool
  | [], [] => false
  | [], _ :: _ => true
  | _ :: _, [] => false
  | a :: as, b :: bs => if a = b then pyListLt as bs else chunkLt a b

/-- The filename order induced by sorting with key=alphanum_key. -/
def fileLt (a b : String) : Bool :=
  pyListLt (alphanum_key a) (alphanum_key b)

/-- Fuel-indexed worker for the specification-side order. Written from the
spec's words, independently of alphanum_key: walk both strings; when both
positions hold digits, compare the two maximal digit runs as integers and on
a tie continue after them; a digit run sorts before a non-digit character;
otherwise compare characters (hence non-digit chunks as strings). -/
def natGo : Nat → List Char → List Char → Bool
  | _, [], [] => false
  | _, [], _ :: _ => true
  | _, _ :: _, [] => false
  | 0, _ :: _, _ :: _ => false
  | Nat.succ f, a :: as, b :: bs =>
    if isDig a then
      if isDig b then
        let m := natOfDigits ((a :: as).takeWhile isDig)
        let n := natOfDigits ((b :: bs).takeWhile isDig)
        if m = n then natGo f ((a :: as).dropWhile isDig) ((b :: bs).dropWhile isDig)
        else decide (m < n)
      else true
    else
      if isDig b then false
      else if a = b then natGo f as bs else decide (a < b)

/-- Specification-side natural order on character lists. -/
def natLessAux (s t : List Char) : Bool :=
  natGo (s.length + t.length) s t

/-- Specification-side natural order on filenames: maximal numeric runs
compared as integers, non-numeric chunks compared as strings. -/
def naturalLess (a b : String) : Bool :=
  natLessAux a.data b.data

/-- Stable insertion into an ascending list: walk past strictly smaller
elements, insert before the first element not below the new one. -/
def pyInsert {α : Type} (lt : α → α → Bool) (x : α) : List α → List α
  | [] => [x]
  | y :: ys => if lt y x then y :: pyInsert lt x ys else x :: y :: ys

/-- Stable ascending sort by a strict order, the contract of Python's
list.sort. -/
def pySort {α : Type} (lt : α → α → Bool) : List α → List α
  | [] => []
  | x :: xs => pyInsert lt x (pySort lt xs)

/-- files.sort(key=self.alphanum_key): the directory listing sorted by the
alphanum_key order; the subject index of a file is its position here. -/
def pySortFiles (files : List String) : List String :=
  pySort fileLt files

/-! ## Loading surfaces, PCA build and fitting (PCA_Kinematics.py) -/

/-- File-extension test of Load_Surface_From_Directory (lines 1136, 1148):
Python files[i][-3:], which on names shorter than three characters is the
whole name and so matches neither extension. -/
def isSupportedSurface (name : String) : Bool :=
  name.takeRight 3 = "stl" || name.takeRight 3 = "ply"

/-- Error vocabulary of the modeling script: the ValueError of
Load_Surface_From_Directory (line 1192) when point counts differ, and the
missing-model ValueError of onPCAFittingButtonClicked (line 1226). -/
inductive PipelineError where
  | correspondenceMismatch
  | modelNotBuilt
deriving DecidableEq

/-- A directory is a list of (filename, mesh contents) pairs in listing
order; only stl/ply entries are ever read. -/
abbrev SurfaceDir (P : Type) := List (String × Mesh P)

/-- The entries Load_Surface_From_Directory actually loads: the directory
listing sorted with key=alphanum_key (line 1109), restricted to stl/ply
files (lines 1136-1162), in that order. -/
def loadedEntries {P : Type} (dir : SurfaceDir P) : SurfaceDir P :=
  (pySort (fun a b => fileLt a.1 b.1) dir).filter (fun e => isSupportedSurface e.1)

/-- Embedding of Load_Surface_From_Directory (lines 1103-1194), less the
widget-state mutation handled by `loadWithState`: load the sorted supported
files, then raise unless the loaded meshes show exactly one distinct point
count (len(np.unique(point counts)) != 1, lines 1170-1192). -/
def Load_Surface_From_Directory {P : Type} (dir : SurfaceDir P) :
    Except PipelineError (SurfaceDir P) :=
  let loaded := loadedEntries dir
  let counts := loaded.map (fun e => e.2.points.length)
  if counts.dedup.length ≠ 1 then Except.error PipelineError.correspondenceMismatch
  else Except.ok loaded

/-- The widget fields the build/fit flow reads and writes: NumEVs (number of
eigenvalue coefficients to use), num_tuples (how many coefficients are fitted,
set from NumEVs inside Load_Surface_From_Directory, line 1112), and the PCA
model object of abstract type M. -/
structure PCAWidget (P M : Type) where
  NumEVs : Nat
  num_tuples : Nat
  pca_model : Option M
deriving DecidableEq

/-- Load_Surface_From_Directory including its side effect on the widget:
self.num_tuples = self.NumEVs (line 1112) happens before the point-count
check can raise; a raise propagates, otherwise the updated widget and the
loaded entries are handed on. -/
def loadWithState {P M : Type} (st : PCAWidget P M) (dir : SurfaceDir P) :
    Except PipelineError (PCAWidget P M × SurfaceDir P) :=
  (Load_Surface_From_Directory dir).map
    (fun loaded =>
      ({ NumEVs := st.NumEVs, num_tuples := st.NumEVs, pca_model := st.pca_model }, loaded))

/-- The model-building branch of PCA_KinematicsWidget.onCompute (lines
834-857): load the training directory, set NumEVs to the number of loaded
surfaces minus one (line 852), build the vtkPCAAnalysisFilter model (lines
855-857, abstracted by `buildPCA`). A load error propagates and nothing is
built. -/
def onComputeBuild {P M : Type} (buildPCA : List (Mesh P) → M)
    (st : PCAWidget P M) (dir : SurfaceDir P) :
    Except PipelineError (PCAWidget P M) :=
  (loadWithState st dir).map
    (fun pr =>
      { NumEVs := pr.2.length - 1,
        num_tuples := pr.1.num_tuples,
        pca_model := some (buildPCA (pr.2.map Prod.snd)) })

/-- Embedding of Fit_Polydata (lines 1038-1093): the coefficient table starts
as one all-zero row of num_tuples entries (np.zeros, line 1052); for each
polydata a row of fitted parameters is stacked on (GetShapeParameters into a
vtkFloatArray of num_tuples tuples, abstracted by `fitFn`, then np.vstack,
line 1067); the initializing zero row is deleted before export (line 1083).
The exported table is returned. -/
def Fit_Polydata {P M : Type} (fitFn : M → Mesh P → Nat → List Rat) (model : M)
    (polys : List (Mesh P)) (num_tuples : Nat) : List (List Rat) :=
  let table := polys.foldl (fun tbl p => tbl ++ [fitFn model p num_tuples])
    [List.replicate num_tuples (0 : Rat)]
  table.drop 1

/-- onPCAFittingButtonClicked (lines 1196-1258): require a built model, load
the fitting directory (setting num_tuples = NumEVs on the way, line 1112),
fit every loaded polydata (line 1256), and export the coefficient table
together with the companion list of the loaded filenames in the same order
(Files_Fitted.txt, lines 1090-1093). -/
def onPCAFitting {P M : Type} (fitFn : M → Mesh P → Nat → List Rat)
    (st : PCAWidget P M) (fitDir : SurfaceDir P) :
    Except PipelineError (List (List Rat) × List String) :=
  match st.pca_model with
  | none => Except.error PipelineError.modelNotBuilt
  | some m =>
    (loadWithState st fitDir).map
      (fun pr =>
        (Fit_Polydata fitFn m (pr.2.map Prod.snd) pr.1.num_tuples,
         pr.2.map Prod.fst))

/-! ## Bone-label configuration and reference-bone removal
(Create_Training_Data.py lines 521-527 and 722-725) -/

/-- The two runtime shapes self.bone_labels can take: the numpy integer array
parsed from the text field (np.fromstring, line 521), or the plain Python
range produced by the default branch (line 526). -/
inductive PyLabels where
  | npArray (l : List Int)
  | pyRange (lo hi : Int)
deriving DecidableEq

/-- The value list of range(lo, hi). -/
def rangeList (lo hi : Int) : List Int :=
  (List.range (hi - lo).toNat).map (fun k => lo + (k : Int))

/-- Iterating over self.bone_labels (for label in self.bone_labels). -/
def PyLabels.toList : PyLabels → List Int
  | PyLabels.npArray l => l
  | PyLabels.pyRange lo hi => rangeList lo hi

/-- np.argwhere(self.bone_labels == self.ref_label) (line 724). On a numpy
array the comparison is elementwise and argwhere lists the matching indices;
on a Python range the comparison is the scalar False, of which argwhere finds
no nonzero entry. -/
def argwhereEqRef : PyLabels → Int → List Nat
  | PyLabels.npArray l, ref => (l.enum.filter (fun p => decide (p.2 = ref))).map Prod.fst
  | PyLabels.pyRange _ _, _ => []

/-- np.delete(arr, indices): drop the listed positions. -/
def npDelete (l : List Int) (idxs : List Nat) : List Int :=
  (l.enum.filter (fun p => !(idxs.contains p.1))).map Prod.snd

/-- Lines 521-526: parse the label text; if its first entry is -1, replace it
with range(sliderMin, sliderMax + 1). -/
def labelsFromConfig (entered : List Int) (sliderMin sliderMax : Int) : PyLabels :=
  if entered.headD 0 = -1 then PyLabels.pyRange sliderMin (sliderMax + 1)
  else PyLabels.npArray entered

/-- Lines 722-725 followed by the export loop (lines 728-781): when the
remove-reference-bone box is checked, bone_labels becomes
np.delete(bone_labels, np.argwhere(bone_labels == ref_label)); the export
then iterates the resulting label list. -/
def boneLabelsForExport (remove : Bool) (labels : PyLabels) (ref : Int) : List Int :=
  if remove then npDelete labels.toList (argwhereEqRef labels ref)
  else labels.toList

/-- vtkAppendPolyData over a list of meshes (Combine_Surfaces, lines 957-974):
concatenate points; append triangles with point ids offset by the points
already accumulated. -/
def Combine_Surfaces {P : Type} (ms : List (Mesh P)) : Mesh P :=
  ms.foldl
    (fun acc m =>
      { points := acc.points ++ m.points,
        tris := acc.tris ++ m.tris.map (fun t =>
          (t.1 + acc.points.length, t.2.1 + acc.points.length, t.2.2 + acc.points.length)) })
    { points := [], tris := [] }

/-- The per-subject combine list (lines 740-741): the meshes of the exported
labels for subject i, in label order. -/
def exportCombineList {P : Type} (s : BoneSet P) (labels : List Int) (i : Nat) : List (Mesh P) :=
  labels.map (fun label => s label.toNat i)

/-! ## Lemmas about the registration state and passes -/

theorem setBone_same {P : Type} (s : BoneSet P) (l i : Nat) (m : Mesh P) :
    setBone s l i m l i = m := by
  simp [setBone]

theorem setBone_ne_row {P : Type} (s : BoneSet P) (l i : Nat) (m : Mesh P)
    {l' : Nat} (j : Nat) (h : l' ≠ l) : setBone s l i m l' j = s l' j := by
  simp [setBone, h]

theorem setBone_ne_col {P : Type} (s : BoneSet P) (l i : Nat) (m : Mesh P)
    (l' : Nat) {j : Nat} (h : j ≠ i) : setBone s l i m l' j = s l' j := by
  simp [setBone, h]

theorem pass1Row_other {P Tr : Type} (E : IcpEngine P Tr) (r : Mesh P) (label : Nat)
    {l' : Nat} (h : l' ≠ label) :
    ∀ (is : List Nat) (s : BoneSet P) (j : Nat), pass1Row E r label s is l' j = s l' j := by
  intro is
  induction is with
  | nil => intro s j; rfl
  | cons a as ih =>
    intro s j
    show pass1Row E r label (pass1Step E r label s a) as l' j = s l' j
    rw [ih]
    exact setBone_ne_row _ _ _ _ _ h

theorem pass1Row_not_mem {P Tr : Type} (E : IcpEngine P Tr) (r : Mesh P) (label : Nat) :
    ∀ (is : List Nat) (s : BoneSet P) {i : Nat}, i ∉ is →
      pass1Row E r label s is label i = s label i := by
  intro is
  induction is with
  | nil => intro s i _; rfl
  | cons a as ih =>
    intro s i hi
    show pass1Row E r label (pass1Step E r label s a) as label i = s label i
    rw [ih _ (fun hmem => hi (List.mem_cons_of_mem a hmem))]
    exact setBone_ne_col _ _ _ _ _ (fun hia => hi (List.mem_cons.mpr (Or.inl hia)))

theorem pass1Row_cell {P Tr : Type} (E : IcpEngine P Tr) (r : Mesh P) (label : Nat) :
    ∀ (is : List Nat) (s : BoneSet P) {i : Nat}, is.Nodup → i ∈ is →
      pass1Row E r label s is label i = IterativeClosestPoint E r (s label i) none := by
  intro is
  induction is with
  | nil => intro s i _ hi; cases hi
  | cons a as ih =>
    intro s i hnd hi
    have hand := List.nodup_cons.mp hnd
    show pass1Row E r label (pass1Step E r label s a) as label i = _
    rcases List.mem_cons.mp hi with hia | hias
    · subst hia
      rw [pass1Row_not_mem E r label as _ hand.1]
      exact setBone_same _ _ _ _
    · have hne : i ≠ a := fun hia => hand.1 (hia ▸ hias)
      rw [ih _ hand.2 hias, pass1Step,
        setBone_ne_col _ _ _ _ _ hne]

theorem pass1_untouched {P Tr : Type} (E : IcpEngine P Tr) (n : Nat)
    (rs : Nat → Mesh P) {l' : Nat} :
    ∀ (labels : List Nat) (s : BoneSet P) (j : Nat), l' ∉ labels →
      pass1 E labels n rs s l' j = s l' j := by
  intro labels
  induction labels with
  | nil => intro s j _; rfl
  | cons l0 rest ih =>
    intro s j hl
    show pass1 E rest n rs (pass1Row E (rs l0) l0 s (List.range n)) l' j = s l' j
    rw [ih _ _ (fun hmem => hl (List.mem_cons_of_mem l0 hmem))]
    exact pass1Row_other E _ l0 (fun he => hl (List.mem_cons.mpr (Or.inl he))) _ _ _

theorem pass1_cell {P Tr : Type} (E : IcpEngine P Tr) (n : Nat) (rs : Nat → Mesh P) :
    ∀ (labels : List Nat) (s : BoneSet P) {label i : Nat},
      labels.Nodup → label ∈ labels → i < n →
      pass1 E labels n rs s label i = IterativeClosestPoint E (rs label) (s label i) none := by
  intro labels
  induction labels with
  | nil => intro s label i _ hmem _; cases hmem
  | cons l0 rest ih =>
    intro s label i hnd hmem hi
    have hand := List.nodup_cons.mp hnd
    show pass1 E rest n rs (pass1Row E (rs l0) l0 s (List.range n)) label i = _
    rcases List.mem_cons.mp hmem with he | hrest
    · subst he
      rw [pass1_untouched E n rs rest _ _ hand.1,
        pass1Row_cell E _ label _ _ (List.nodup_range n) (List.mem_range.mpr hi)]
    · have hne : label ≠ l0 := fun he => hand.1 (he ▸ hrest)
      rw [ih _ hand.2 hrest hi, pass1Row_other E _ l0 hne _ _ _]

theorem pass2Step_ne {P Tr : Type} (E : IcpEngine P Tr) {ref label : Nat}
    (h : label ≠ ref) (s : BoneSet P) (i : Nat) :
    pass2Step E ref label s i =
      setBone s label i (IterativeClosestPoint E (s ref i) (s ref 0) (some (s label i))) := by
  simp [pass2Step, h]

theorem pass2Row_self {P Tr : Type} (E : IcpEngine P Tr) (ref : Nat) :
    ∀ (is : List Nat) (s : BoneSet P), pass2Row E ref ref s is = s := by
  intro is
  induction is with
  | nil => intro s; rfl
  | cons a as ih =>
    intro s
    show pass2Row E ref ref (pass2Step E ref ref s a) as = s
    rw [show pass2Step E ref ref s a = s from by simp [pass2Step], ih]

theorem pass2Row_other {P Tr : Type} (E : IcpEngine P Tr) (ref label : Nat)
    {l' : Nat} (h : l' ≠ label) :
    ∀ (is : List Nat) (s : BoneSet P) (j : Nat), pass2Row E ref label s is l' j = s l' j := by
  intro is
  induction is with
  | nil => intro s j; rfl
  | cons a as ih =>
    intro s j
    show pass2Row E ref label (pass2Step E ref label s a) as l' j = s l' j
    rw [ih]
    by_cases hlr : label = ref
    · simp [pass2Step, hlr]
    · rw [pass2Step_ne E hlr, setBone_ne_row _ _ _ _ _ h]

theorem pass2Row_not_mem {P Tr : Type} (E : IcpEngine P Tr) (ref label : Nat) :
    ∀ (is : List Nat) (s : BoneSet P) {i : Nat}, i ∉ is →
      pass2Row E ref label s is label i = s label i := by
  intro is
  induction is with
  | nil => intro s i _; rfl
  | cons a as ih =>
    intro s i hi
    show pass2Row E ref label (pass2Step E ref label s a) as label i = s label i
    rw [ih _ (fun hmem => hi (List.mem_cons_of_mem a hmem))]
    by_cases hlr : label = ref
    · simp [pass2Step, hlr]
    · rw [pass2Step_ne E hlr,
        setBone_ne_col _ _ _ _ _ (fun hia => hi (List.mem_cons.mpr (Or.inl hia)))]

theorem pass2Row_cell {P Tr : Type} (E : IcpEngine P Tr) {ref label : Nat}
    (hlr : label ≠ ref) :
    ∀ (is : List Nat) (s : BoneSet P) {i : Nat}, is.Nodup → i ∈ is →
      pass2Row E ref label s is label i =
        IterativeClosestPoint E (s ref i) (s ref 0) (some (s label i)) := by
  intro is
  induction is with
  | nil => intro s i _ hi; cases hi
  | cons a as ih =>
    intro s i hnd hi
    have hand := List.nodup_cons.mp hnd
    show pass2Row E ref label (pass2Step E ref label s a) as label i = _
    rcases List.mem_cons.mp hi with hia | hias
    · subst hia
      rw [pass2Row_not_mem E ref label as _ hand.1, pass2Step_ne E hlr]
      exact setBone_same _ _ _ _
    · have hne : i ≠ a := fun hia => hand.1 (hia ▸ hias)
      rw [ih _ hand.2 hias, pass2Step_ne E hlr,
        setBone_ne_row _ _ _ _ _ (Ne.symm hlr),
        setBone_ne_row _ _ _ _ _ (Ne.symm hlr),
        setBone_ne_col _ _ _ _ _ hne]

theorem pass2_untouched {P Tr : Type} (E : IcpEngine P Tr) (ref n : Nat) {l' : Nat} :
    ∀ (labels : List Nat) (s : BoneSet P) (j : Nat), l' ∉ labels →
      pass2 E labels ref n s l' j = s l' j := by
  intro labels
  induction labels with
  | nil => intro s j _; rfl
  | cons l0 rest ih =>
    intro s j hl
    show pass2 E rest ref n (pass2Row E ref l0 s (List.range n)) l' j = s l' j
    rw [ih _ _ (fun hmem => hl (List.mem_cons_of_mem l0 hmem))]
    exact pass2Row_other E ref l0 (fun he => hl (List.mem_cons.mpr (Or.inl he))) _ _ _

theorem pass2_ref_row {P Tr : Type} (E : IcpEngine P Tr) (ref n : Nat) :
    ∀ (labels : List Nat) (s : BoneSet P) (j : Nat),
      pass2 E labels ref n s ref j = s ref j := by
  intro labels
  induction labels with
  | nil => intro s j; rfl
  | cons l0 rest ih =>
    intro s j
    show pass2 E rest ref n (pass2Row E ref l0 s (List.range n)) ref j = s ref j
    rw [ih]
    by_cases he : l0 = ref
    · rw [he, pass2Row_self]
    · exact pass2Row_other E ref l0 (fun hc => he hc.symm) _ _ _

theorem pass2_cell {P Tr : Type} (E : IcpEngine P Tr) (ref n : Nat) :
    ∀ (labels : List Nat) (s : BoneSet P) {label i : Nat},
      labels.Nodup → label ∈ labels → label ≠ ref → i < n →
      pass2 E labels ref n s label i =
        IterativeClosestPoint E (s ref i) (s ref 0) (some (s label i)) := by
  intro labels
  induction labels with
  | nil => intro s label i _ hmem _ _; cases hmem
  | cons l0 rest ih =>
    intro s label i hnd hmem hlr hi
    have hand := List.nodup_cons.mp hnd
    show pass2 E rest ref n (pass2Row E ref l0 s (List.range n)) label i = _
    rcases List.mem_cons.mp hmem with he | hrest
    · subst he
      rw [pass2_untouched E ref n rest _ _ hand.1,
        pass2Row_cell E hlr _ _ (List.nodup_range n) (List.mem_range.mpr hi)]
    · have hne : label ≠ l0 := fun he => hand.1 (he ▸ hrest)
      rw [ih _ hand.2 hrest hlr hi]
      by_cases hl0 : l0 = ref
      · rw [hl0, pass2Row_self]
      · rw [pass2Row_other E ref l0 hne _ _ _,
          pass2Row_other E ref l0 (fun hc => hl0 hc.symm) _ _ _,
          pass2Row_other E ref l0 (fun hc => hl0 hc.symm) _ _ _]

/-! ## Claim theorems: registration protocol -/

/-- C1. The reference bone is registered last: the pipeline is Pass 1, then
Pass 2, then Pass 3 in program order (first conjunct); Pass 2 leaves every
reference-bone entry untouched and computes every replacement of a
non-reference entry from the reference-bone entries exactly as they stood at
the start of Pass 2, i.e. before any Pass-3 replacement (second conjunct);
and running Pass 3 before Pass 2 changes the final point set on a concrete
two-label, two-subject run (third conjunct). -/
theorem c1_reference_bone_registered_last :
    (∀ (P Tr : Type) (E : IcpEngine P Tr) (labels : List Nat) (ref n : Nat)
        (s0 : BoneSet P),
      registerAll E labels ref n s0 =
        pass3 E ref n (pass2 E labels ref n (pass1Result E labels n s0)))
    ∧ (∀ (P Tr : Type) (E : IcpEngine P Tr) (labels : List Nat) (ref n : Nat)
        (s1 : BoneSet P) (label i : Nat),
      labels.Nodup → label ∈ labels → label ≠ ref → i < n →
        pass2 E labels ref n s1 ref i = s1 ref i ∧
        pass2 E labels ref n s1 label i =
          IterativeClosestPoint E (s1 ref i) (s1 ref 0) (some (s1 label i)))
    ∧ registerAllSwapped demoEngine [1, 2] 2 2 demoState 1 1 ≠
        registerAll demoEngine [1, 2] 2 2 demoState 1 1 := by
  refine ⟨fun _ _ _ _ _ _ _ => rfl, ?_, by decide⟩
  intro P Tr E labels ref n s1 label i hnd hmem hlr hi
  exact ⟨pass2_ref_row E ref n labels s1 i, pass2_cell E ref n labels s1 hnd hmem hlr hi⟩

/-- Witness for C1 on a concrete run: two labels, reference label 2, two
subjects. -/
theorem c1_witness :
    pass2 demoEngine [1, 2] 2 2 demoState 2 1 = demoState 2 1 ∧
    pass2 demoEngine [1, 2] 2 2 demoState 1 1 =
      IterativeClosestPoint demoEngine (demoState 2 1) (demoState 2 0)
        (some (demoState 1 1)) :=
  c1_reference_bone_registered_last.2.1 Int Int demoEngine [1, 2] 2 2 demoState 1 1
    (by decide) (by decide) (by decide) (by decide)

/-- C2, counterexample. The claim says Pass 2 solves ICP with source
BoneSet[ref][0] and target BoneSet[ref][i]; on a concrete run the entry the
code writes differs from the mesh obtained by applying the transform solved
that way round. -/
theorem c2_counterexample :
    pass2 demoEngine [1, 2] 2 2 demoState 1 1 ≠
      transformMesh demoEngine (demoEngine.solve (demoState 2 0) (demoState 2 1))
        (demoState 1 1) := by
  decide

/-- C2, amended: in Pass 2, for every non-reference label and every subject i,
the code aligns BoneSet[ref][i] as the ICP source onto BoneSet[ref][0] as the
ICP target, and stores into BoneSet[label][i] the image of BoneSet[label][i]
under that transform (propagation of the reference bone's transform, not an
independent re-registration of the non-reference bone). -/
theorem c2_pass2_alignment_direction (P Tr : Type) (E : IcpEngine P Tr)
    (labels : List Nat) (ref n : Nat) (s : BoneSet P) (label i : Nat)
    (hnd : labels.Nodup) (hmem : label ∈ labels) (hlr : label ≠ ref) (hi : i < n) :
    pass2 E labels ref n s label i =
      IterativeClosestPoint E (s ref i) (s ref 0) (some (s label i)) ∧
    pass2 E labels ref n s label i =
      transformMesh E (E.solve (s ref i) (s ref 0)) (s label i) :=
  ⟨pass2_cell E ref n labels s hnd hmem hlr hi,
   pass2_cell E ref n labels s hnd hmem hlr hi⟩

/-- Witness for the amended C2 on the concrete run. -/
theorem c2_witness :
    pass2 demoEngine [1, 2] 2 2 demoState 1 1 =
      IterativeClosestPoint demoEngine (demoState 2 1) (demoState 2 0)
        (some (demoState 1 1)) ∧
    pass2 demoEngine [1, 2] 2 2 demoState 1 1 =
      transformMesh demoEngine (demoEngine.solve (demoState 2 1) (demoState 2 0))
        (demoState 1 1) :=
  c2_pass2_alignment_direction Int Int demoEngine [1, 2] 2 2 demoState 1 1
    (by decide) (by decide) (by decide) (by decide)

/-- C3. After Pass 1, for every label in the (duplicate-free) label list and
every subject i, BoneSet[label][i] holds the label's reference shape (subject
0's original extracted mesh, captured before Pass 1 starts) transformed by
the ICP solution whose source is that reference shape and whose target is
subject i's original extracted shape; consequently the entry inherits the
reference shape's triangle list and point count (and its point order, since
the points are the pointwise image of the reference shape's point list). -/
theorem c3_pass1_creates_correspondence (P Tr : Type) (E : IcpEngine P Tr)
    (labels : List Nat) (n : Nat) (s0 : BoneSet P) (label i : Nat)
    (hnd : labels.Nodup) (hmem : label ∈ labels) (hi : i < n) :
    pass1Result E labels n s0 label i =
      transformMesh E (E.solve (s0 label 0) (s0 label i)) (s0 label 0) ∧
    (pass1Result E labels n s0 label i).tris = (s0 label 0).tris ∧
    (pass1Result E labels n s0 label i).points =
      (s0 label 0).points.map (E.applyPt (E.solve (s0 label 0) (s0 label i))) := by
  have h := pass1_cell E n (referenceShapes s0) labels s0 hnd hmem hi
  refine ⟨h, ?_, ?_⟩ <;>
    rw [show pass1Result E labels n s0 = pass1 E labels n (referenceShapes s0) s0 from rfl,
      h] <;> rfl

/-- Witness for C3 on the concrete run. -/
theorem c3_witness :
    pass1Result demoEngine [1, 2] 2 demoState 1 1 =
      transformMesh demoEngine (demoEngine.solve (demoState 1 0) (demoState 1 1))
        (demoState 1 0) ∧
    (pass1Result demoEngine [1, 2] 2 demoState 1 1).tris = (demoState 1 0).tris ∧
    (pass1Result demoEngine [1, 2] 2 demoState 1 1).points =
      (demoState 1 0).points.map
        (demoEngine.applyPt (demoEngine.solve (demoState 1 0) (demoState 1 1))) :=
  c3_pass1_creates_correspondence Int Int demoEngine [1, 2] 2 demoState 1 1
    (by decide) (by decide) (by decide)

/-! ## Claim theorems: degenerate ICP input (C5) -/

/-- C5, counterexample. A one-point source is degenerate (fewer than 4
non-coplanar points), yet the ICP wrapper returns a transformed mesh instead
of failing with InsufficientGeometryError. -/
theorem c5_counterexample :
    (ptMesh 5).points.length < 4 ∧
    IterativeClosestPointE demoEngine (ptMesh 5) (ptMesh 7) none =
      Except.ok (ptMesh 7) :=
  ⟨by decide,
   congrArg Except.ok
     (show IterativeClosestPoint demoEngine (ptMesh 5) (ptMesh 7) none = ptMesh 7 by decide)⟩

/-- C5, amended: the ICP wrapper contains no degeneracy check and no failure
path at all; for every input, degenerate or not, it returns the transformed
mesh and never reports InsufficientGeometryError. -/
theorem c5_icp_never_raises (P Tr : Type) (E : IcpEngine P Tr)
    (source target : Mesh P) (reference : Option (Mesh P)) (e : IcpFailure) :
    IterativeClosestPointE E source target reference ≠ Except.error e := by
  simp [IterativeClosestPointE]

/-- Witness for the amended C5 at a concrete degenerate input. -/
theorem c5_witness :
    IterativeClosestPointE demoEngine (ptMesh 5) (ptMesh 7) none ≠
      Except.error IcpFailure.insufficientGeometry :=
  c5_icp_never_raises Int Int demoEngine (ptMesh 5) (ptMesh 7) none
    IcpFailure.insufficientGeometry

/-! ## Claim theorem: the smoothing pipeline (C6) -/

/-- C6. Smooth_Surface applies exactly: normals, weld, smoothing only when
iterations > 0, decimation only when the ratio is strictly between 0 and 1,
weld, normals — in this order (first conjunct, for arbitrary filters); under
the trace instantiation the recorded filter applications are exactly that
step list, so ratios outside (0,1) leave decimation out entirely and
iterations = 0 leaves smoothing out entirely (second conjunct). -/
theorem c6_smoothing_pipeline_order :
    (∀ (M : Type) (ops : MeshOps M) (iters : Int) (relax ratio : Rat) (m : M),
      Smooth_Surface ops iters relax ratio m =
        ops.computeNormals (ops.clean
          ((if ratio > 0 ∧ ratio < 1 then ops.decimate ratio else id)
            ((if iters > 0 then ops.smooth iters relax else id)
              (ops.clean (ops.computeNormals m))))))
    ∧ (∀ (iters : Int) (relax ratio : Rat) (m : List String),
      Smooth_Surface traceOps iters relax ratio m =
        m ++ ["normals", "clean"]
          ++ (if iters > 0 then ["smooth"] else [])
          ++ (if ratio > 0 ∧ ratio < 1 then ["decimate"] else [])
          ++ ["clean", "normals"]) := by
  constructor
  · intro M ops iters relax ratio m
    by_cases h1 : iters > 0 <;> by_cases h2 : ratio > 0 ∧ ratio < 1 <;>
      simp [Smooth_Surface, h1, h2]
  · intro iters relax ratio m
    by_cases h1 : iters > 0 <;> by_cases h2 : ratio > 0 ∧ ratio < 1 <;>
      simp [Smooth_Surface, traceOps, h1, h2]

/-! ## Claim theorem: reference-bone removal at export (C9) -/

/-- C9 (code bug, evaluation at the failing input). With the default label
configuration (text "-1", slider minimum 1 and maximum 9, hence
bone_labels = range(1, 10)) and the remove-reference-bone option enabled,
the exported label list still contains the reference label 8: the comparison
bone_labels == ref_label on a Python range is the scalar False, argwhere
finds nothing and np.delete removes nothing, so the reference bone's mesh is
still placed on the per-subject combine list. With an explicitly entered
numpy label array the same code does remove the reference label (last
conjunct), which shows the divergence is specific to the default branch. -/
theorem c9_default_labels_keep_reference_bone :
    boneLabelsForExport true (labelsFromConfig [-1] 1 9) 8 =
      [1, 2, 3, 4, 5, 6, 7, 8, 9] ∧
    (8 : Int) ∈ boneLabelsForExport true (labelsFromConfig [-1] 1 9) 8 ∧
    exportCombineList demoState (boneLabelsForExport true (labelsFromConfig [-1] 1 9) 8) 0
      = [demoState 1 0, demoState 2 0, demoState 3 0, demoState 4 0, demoState 5 0,
         demoState 6 0, demoState 7 0, demoState 8 0, demoState 9 0] ∧
    boneLabelsForExport true (PyLabels.npArray [1, 2, 3, 4, 5, 6, 7, 8, 9]) 8 =
      [1, 2, 3, 4, 5, 6, 7, 9] := by
  refine ⟨by decide, by decide, ?_, by decide⟩
  rw [show boneLabelsForExport true (labelsFromConfig [-1] 1 9) 8 =
      [1, 2, 3, 4, 5, 6, 7, 8, 9] from by decide]
  rfl

/-! ## Lemmas about loading, building and fitting -/

theorem foldl_append_rows {α β : Type} (f : α → β) :
    ∀ (l : List α) (init : List β),
      l.foldl (fun tbl p => tbl ++ [f p]) init = init ++ l.map f := by
  intro l
  induction l with
  | nil => intro init; simp
  | cons a as ih => intro init; rw [List.foldl_cons, ih, List.map_cons, List.append_assoc]; rfl

/-- The exported table of Fit_Polydata is exactly one fitted row per input
polydata, in input order: stacking onto the zero row and then deleting the
zero row leaves the fitted rows. -/
theorem Fit_Polydata_eq {P M : Type} (fitFn : M → Mesh P → Nat → List Rat) (model : M)
    (polys : List (Mesh P)) (k : Nat) :
    Fit_Polydata fitFn model polys k = polys.map (fun p => fitFn model p k) := by
  rw [Fit_Polydata, foldl_append_rows]
  rfl

theorem dedup_length_one_of_all_eq {α : Type} [DecidableEq α] (l : List α)
    (hne : l ≠ []) (h : ∀ x ∈ l, ∀ y ∈ l, x = y) : l.dedup.length = 1 := by
  match hd : l.dedup with
  | [] => exact absurd ((List.dedup_eq_nil l).mp hd) hne
  | [a] => rfl
  | a :: b :: t =>
    have hnd : (a :: b :: t).Nodup := hd ▸ l.nodup_dedup
    have ha : a ∈ l := List.mem_dedup.mp (hd ▸ List.mem_cons_self a (b :: t))
    have hb : b ∈ l := List.mem_dedup.mp (hd ▸ List.mem_cons_of_mem a (List.mem_cons_self b t))
    have : a = b := h a ha b hb
    exact absurd this ((List.nodup_cons.mp hnd).1 ∘ fun he => he ▸ List.mem_cons_self b t)

theorem dedup_length_ne_one_of_two {α : Type} [DecidableEq α] (l : List α)
    {x y : α} (hx : x ∈ l) (hy : y ∈ l) (hxy : x ≠ y) : l.dedup.length ≠ 1 := by
  intro hlen
  obtain ⟨a, ha⟩ := List.length_eq_one.mp hlen
  have hxa : x = a := by
    have hmem := List.mem_dedup.mpr hx
    rw [ha] at hmem
    exact List.mem_singleton.mp hmem
  have hya : y = a := by
    have hmem := List.mem_dedup.mpr hy
    rw [ha] at hmem
    exact List.mem_singleton.mp hmem
  exact hxy (hxa.trans hya.symm)

theorem Load_ok_of_uniform {P : Type} (dir : SurfaceDir P)
    (hne : loadedEntries dir ≠ [])
    (h : ∀ x ∈ loadedEntries dir, ∀ y ∈ loadedEntries dir,
      x.2.points.length = y.2.points.length) :
    Load_Surface_From_Directory dir = Except.ok (loadedEntries dir) := by
  rw [Load_Surface_From_Directory, if_neg]
  intro hcontra
  apply hcontra
  apply dedup_length_one_of_all_eq
  · simp [hne]
  · intro x hx y hy
    obtain ⟨ex, hex, hexv⟩ := List.mem_map.mp hx
    obtain ⟨ey, hey, heyv⟩ := List.mem_map.mp hy
    rw [← hexv, ← heyv]
    exact h ex hex ey hey

theorem Load_error_of_mismatch {P : Type} (dir : SurfaceDir P)
    (h : ∃ x ∈ loadedEntries dir, ∃ y ∈ loadedEntries dir,
      x.2.points.length ≠ y.2.points.length) :
    Load_Surface_From_Directory dir = Except.error PipelineError.correspondenceMismatch := by
  obtain ⟨x, hx, y, hy, hxy⟩ := h
  rw [Load_Surface_From_Directory, if_pos]
  exact dedup_length_ne_one_of_two _
    (List.mem_map.mpr ⟨x, hx, rfl⟩) (List.mem_map.mpr ⟨y, hy, rfl⟩) hxy

theorem Load_ok_elim {P : Type} (dir : SurfaceDir P) (l : SurfaceDir P)
    (h : Load_Surface_From_Directory dir = Except.ok l) : l = loadedEntries dir := by
  rw [Load_Surface_From_Directory] at h
  split at h
  · cases h
  · cases h
    rfl

theorem loadWithState_ok_elim {P M : Type} (st st1 : PCAWidget P M)
    (dir loaded : SurfaceDir P)
    (h : loadWithState st dir = Except.ok (st1, loaded)) :
    st1 = { NumEVs := st.NumEVs, num_tuples := st.NumEVs, pca_model := st.pca_model } ∧
    loaded = loadedEntries dir := by
  rw [loadWithState] at h
  cases hL : Load_Surface_From_Directory dir with
  | error e => rw [hL] at h; cases h
  | ok l =>
    rw [hL] at h
    simp only [Except.map, Except.ok.injEq, Prod.mk.injEq] at h
    exact ⟨h.1.symm, h.2.symm.trans (Load_ok_elim dir l hL)⟩

theorem onComputeBuild_ok_elim {P M : Type} (B : List (Mesh P) → M)
    (st st' : PCAWidget P M) (dir : SurfaceDir P)
    (h : onComputeBuild B st dir = Except.ok st') :
    st' = { NumEVs := (loadedEntries dir).length - 1,
            num_tuples := st.NumEVs,
            pca_model := some (B ((loadedEntries dir).map Prod.snd)) } := by
  rw [onComputeBuild] at h
  cases hL : loadWithState st dir with
  | error e => rw [hL] at h; cases h
  | ok pr =>
    rw [hL] at h
    obtain ⟨st1, loaded⟩ := pr
    obtain ⟨h1, h2⟩ := loadWithState_ok_elim st st1 dir loaded hL
    simp only [Except.map, Except.ok.injEq] at h
    rw [← h, h1, h2]

theorem onPCAFitting_ok_elim {P M : Type} (fitFn : M → Mesh P → Nat → List Rat)
    (st : PCAWidget P M) (m : M) (fitDir : SurfaceDir P)
    (tbl : List (List Rat)) (names : List String)
    (hm : st.pca_model = some m)
    (h : onPCAFitting fitFn st fitDir = Except.ok (tbl, names)) :
    tbl = (loadedEntries fitDir).map (fun e => fitFn m e.2 st.NumEVs) ∧
    names = (loadedEntries fitDir).map Prod.fst := by
  unfold onPCAFitting at h
  rw [hm] at h
  cases hL : loadWithState st fitDir with
  | error e => rw [hL] at h; cases h
  | ok pr =>
    rw [hL] at h
    obtain ⟨st1, loaded⟩ := pr
    obtain ⟨h1, h2⟩ := loadWithState_ok_elim st st1 fitDir loaded hL
    simp only [Except.map, Except.ok.injEq, Prod.mk.injEq] at h
    subst h2
    constructor
    · rw [← h.1, Fit_Polydata_eq, h1, List.map_map]
      rfl
    · rw [← h.2]

/-! ## Claim theorems: PCA build precondition (C4) -/

/-- C4, counterexample. On a directory from which no mesh is loaded, every
two loaded meshes (there are none) trivially have equal point counts, yet
the build still raises the point-count error: the code tests
len(np.unique(counts)) != 1, which also fires on an empty load. -/
theorem c4_counterexample :
    loadedEntries ([] : SurfaceDir Int) = [] ∧
    onComputeBuild (fun _ => ()) ({ NumEVs := 0, num_tuples := 0, pca_model := none } :
        PCAWidget Int Unit) ([] : SurfaceDir Int) =
      Except.error PipelineError.correspondenceMismatch :=
  ⟨rfl, rfl⟩

/-- C4, amended: whenever two loaded meshes have different point counts the
build fails with the correspondence error before any model state is built
(the result is an error value, independent of the PCA decomposition
function B); and whenever at least one mesh is loaded and all loaded meshes
share a point count, no such error is raised and the model is built from the
loaded meshes. -/
theorem c4_point_count_check (P M : Type) (B : List (Mesh P) → M)
    (st : PCAWidget P M) (dir : SurfaceDir P) :
    ((∃ x ∈ loadedEntries dir, ∃ y ∈ loadedEntries dir,
        x.2.points.length ≠ y.2.points.length) →
      onComputeBuild B st dir = Except.error PipelineError.correspondenceMismatch)
    ∧ (loadedEntries dir ≠ [] →
      (∀ x ∈ loadedEntries dir, ∀ y ∈ loadedEntries dir,
        x.2.points.length = y.2.points.length) →
      onComputeBuild B st dir =
        Except.ok { NumEVs := (loadedEntries dir).length - 1,
                    num_tuples := st.NumEVs,
                    pca_model := some (B ((loadedEntries dir).map Prod.snd)) }) := by
  constructor
  · intro h
    rw [onComputeBuild, loadWithState, Load_error_of_mismatch dir h]
    rfl
  · intro hne hall
    rw [onComputeBuild, loadWithState, Load_ok_of_uniform dir hne hall]
    rfl

/-- Witness for C4 on concrete directories: a mismatched pair of ply files
makes the build fail; a uniform pair makes it succeed. -/
theorem c4_witness :
    onComputeBuild (fun _ => ()) ({ NumEVs := 0, num_tuples := 0, pca_model := none } :
        PCAWidget Int Unit)
      [("a1.ply", { points := [0], tris := [] }), ("a2.ply", { points := [0, 1], tris := [] })] =
      Except.error PipelineError.correspondenceMismatch ∧
    onComputeBuild (fun _ => ()) ({ NumEVs := 0, num_tuples := 0, pca_model := none } :
        PCAWidget Int Unit)
      [("a1.ply", { points := [0], tris := [] }), ("a2.ply", { points := [5], tris := [] })] =
      Except.ok { NumEVs := 1, num_tuples := 0,
                  pca_model := some (() : Unit) } := by
  constructor
  · exact (c4_point_count_check Int Unit (fun _ => ())
      { NumEVs := 0, num_tuples := 0, pca_model := none }
      [("a1.ply", { points := [0], tris := [] }),
       ("a2.ply", { points := [0, 1], tris := [] })]).1 (by decide)
  · have h := (c4_point_count_check Int Unit (fun _ => ())
      { NumEVs := 0, num_tuples := 0, pca_model := none }
      [("a1.ply", { points := [0], tris := [] }),
       ("a2.ply", { points := [5], tris := [] })]).2 (by decide) (by decide)
    rw [h]
    rfl

/-! ## Claim theorem: the fitted-coefficient export (C7) -/

/-- C7. A successful fitting run exports one coefficient row per loaded
input mesh, row i fitted from mesh i of the loaded (natural-sorted, then
extension-filtered) entry list, with the initializing zero row gone; the
companion file holds exactly the loaded filenames in the same order; and the
loaded entry list is by definition the directory listing sorted with
key=alphanum_key and restricted to supported extensions. -/
theorem c7_fitted_coefficient_export (P M : Type) (fitFn : M → Mesh P → Nat → List Rat)
    (st : PCAWidget P M) (m : M) (fitDir : SurfaceDir P)
    (tbl : List (List Rat)) (names : List String)
    (hm : st.pca_model = some m)
    (hok : onPCAFitting fitFn st fitDir = Except.ok (tbl, names)) :
    tbl = (loadedEntries fitDir).map (fun e => fitFn m e.2 st.NumEVs) ∧
    names = (loadedEntries fitDir).map Prod.fst ∧
    tbl.length = (loadedEntries fitDir).length ∧
    names.length = tbl.length ∧
    loadedEntries fitDir =
      (pySort (fun a b => fileLt a.1 b.1) fitDir).filter
        (fun e => isSupportedSurface e.1) := by
  obtain ⟨h1, h2⟩ := onPCAFitting_ok_elim fitFn st m fitDir tbl names hm hok
  refine ⟨h1, h2, ?_, ?_, rfl⟩
  · rw [h1, List.length_map]
  · rw [h1, h2, List.length_map, List.length_map]

/-- Witness for C7 on a concrete two-file fitting directory (listed out of
order on disk; the export follows the natural-sort order). -/
theorem c7_witness :
    ([List.replicate 2 (0 : Rat), List.replicate 2 (0 : Rat)] :
        List (List Rat)) =
      (loadedEntries [("b10.ply", ({ points := [3], tris := [] } : Mesh Int)),
        ("b2.ply", ({ points := [4], tris := [] } : Mesh Int))]).map
        (fun e => (fun (_ : Unit) (_ : Mesh Int) (k : Nat) => List.replicate k (0 : Rat))
          () e.2 2) ∧
    (["b2.ply", "b10.ply"] : List String) =
      (loadedEntries [("b10.ply", ({ points := [3], tris := [] } : Mesh Int)),
        ("b2.ply", ({ points := [4], tris := [] } : Mesh Int))]).map Prod.fst ∧
    ([List.replicate 2 (0 : Rat), List.replicate 2 (0 : Rat)] :
        List (List Rat)).length =
      (loadedEntries [("b10.ply", ({ points := [3], tris := [] } : Mesh Int)),
        ("b2.ply", ({ points := [4], tris := [] } : Mesh Int))]).length ∧
    (["b2.ply", "b10.ply"] : List String).length =
      ([List.replicate 2 (0 : Rat), List.replicate 2 (0 : Rat)] :
        List (List Rat)).length ∧
    loadedEntries [("b10.ply", ({ points := [3], tris := [] } : Mesh Int)),
        ("b2.ply", ({ points := [4], tris := [] } : Mesh Int))] =
      (pySort (fun a b => fileLt a.1 b.1)
        [("b10.ply", ({ points := [3], tris := [] } : Mesh Int)),
         ("b2.ply", ({ points := [4], tris := [] } : Mesh Int))]).filter
        (fun e => isSupportedSurface e.1) :=
  c7_fitted_coefficient_export Int Unit
    (fun _ _ k => List.replicate k (0 : Rat))
    { NumEVs := 2, num_tuples := 0, pca_model := some () } ()
    [("b10.ply", { points := [3], tris := [] }),
     ("b2.ply", { points := [4], tris := [] })]
    [List.replicate 2 (0 : Rat), List.replicate 2 (0 : Rat)]
    ["b2.ply", "b10.ply"] rfl rfl

/-! ## Lemmas about the alphanumeric key and the natural order (towards C8) -/

theorem length_dropWhile_le {α : Type} (p : α → Bool) :
    ∀ l : List α, (l.dropWhile p).length ≤ l.length := by
  intro l
  induction l with
  | nil => simp
  | cons a as ih =>
    rw [List.dropWhile_cons]
    by_cases h : p a = true
    · rw [if_pos h]
      exact Nat.le_trans ih (Nat.le_succ _)
    · rw [if_neg h]

theorem dropWhile_head_false {α : Type} (p : α → Bool) :
    ∀ (l : List α) (r : α) (rs : List α), l.dropWhile p = r :: rs → p r = false := by
  intro l
  induction l with
  | nil => intro r rs h; cases h
  | cons a as ih =>
    intro r rs h
    rw [List.dropWhile_cons] at h
    by_cases hp : p a = true
    · rw [if_pos hp] at h
      exact ih r rs h
    · rw [if_neg hp] at h
      cases h
      exact Bool.of_not_eq_true hp

theorem splitGo_succ_eq (f : Nat) (cs : List Char) :
    splitGo (Nat.succ f) cs =
      match cs.dropWhile (fun c => !(isDig c)) with
      | [] => [PyChunk.str (cs.takeWhile (fun c => !(isDig c)))]
      | r :: rs =>
        PyChunk.str (cs.takeWhile (fun c => !(isDig c))) ::
        PyChunk.num (natOfDigits ((r :: rs).takeWhile isDig)) ::
        splitGo f ((r :: rs).dropWhile isDig) := rfl

theorem splitGo_succ_of_nil (f : Nat) (cs : List Char)
    (h : cs.dropWhile (fun c => !(isDig c)) = []) :
    splitGo (Nat.succ f) cs = [PyChunk.str (cs.takeWhile (fun c => !(isDig c)))] := by
  rw [splitGo_succ_eq, h]

theorem splitGo_succ_of_cons (f : Nat) (cs : List Char) (r : Char) (rs : List Char)
    (h : cs.dropWhile (fun c => !(isDig c)) = r :: rs) :
    splitGo (Nat.succ f) cs =
      PyChunk.str (cs.takeWhile (fun c => !(isDig c))) ::
      PyChunk.num (natOfDigits ((r :: rs).takeWhile isDig)) ::
      splitGo f ((r :: rs).dropWhile isDig) := by
  rw [splitGo_succ_eq, h]

theorem dropRun_length_lt (cs : List Char) (r : Char) (rs : List Char)
    (h : cs.dropWhile (fun c => !(isDig c)) = r :: rs) :
    ((r :: rs).dropWhile isDig).length < cs.length := by
  have hr : isDig r = true := by
    have hfalse := dropWhile_head_false (fun c => !(isDig c)) cs r rs h
    simpa using hfalse
  have h1 : (r :: rs).dropWhile isDig = rs.dropWhile isDig := by
    rw [List.dropWhile_cons, if_pos hr]
  have h2 : (rs.dropWhile isDig).length ≤ rs.length := length_dropWhile_le isDig rs
  have h3 : (r :: rs).length ≤ cs.length := by
    rw [← h]
    exact length_dropWhile_le _ cs
  rw [h1]
  simp only [List.length_cons] at h3
  omega

theorem splitGo_mono : ∀ (f g : Nat) (cs : List Char),
    cs.length ≤ f → cs.length ≤ g → splitGo f cs = splitGo g cs := by
  intro f
  induction f with
  | zero =>
    intro g cs hf _
    have hcs : cs = [] := List.length_eq_zero.mp (Nat.le_zero.mp hf)
    subst hcs
    cases g with
    | zero => rfl
    | succ g => rfl
  | succ f ih =>
    intro g cs hf hg
    cases g with
    | zero =>
      have hcs : cs = [] := List.length_eq_zero.mp (Nat.le_zero.mp hg)
      subst hcs
      rfl
    | succ g =>
      cases hrest : cs.dropWhile (fun c => !(isDig c)) with
      | nil => rw [splitGo_succ_of_nil f cs hrest, splitGo_succ_of_nil g cs hrest]
      | cons r rs =>
        rw [splitGo_succ_of_cons f cs r rs hrest, splitGo_succ_of_cons g cs r rs hrest]
        have hlt := dropRun_length_lt cs r rs hrest
        rw [ih g _ (by omega) (by omega)]

theorem key_eq_splitGo (fuel : Nat) (cs : List Char) (h : cs.length ≤ fuel) :
    splitGo fuel cs = alphanumKeyAux cs :=
  splitGo_mono fuel cs.length cs h (Nat.le_refl _)

theorem key_of_nilrest (cs : List Char)
    (h : cs.dropWhile (fun c => !(isDig c)) = []) :
    alphanumKeyAux cs = [PyChunk.str (cs.takeWhile (fun c => !(isDig c)))] := by
  cases cs with
  | nil => rfl
  | cons a as => exact splitGo_succ_of_nil as.length (a :: as) h

theorem key_of_consrest (cs : List Char) (r : Char) (rs : List Char)
    (h : cs.dropWhile (fun c => !(isDig c)) = r :: rs) :
    alphanumKeyAux cs =
      PyChunk.str (cs.takeWhile (fun c => !(isDig c))) ::
      PyChunk.num (natOfDigits ((r :: rs).takeWhile isDig)) ::
      alphanumKeyAux ((r :: rs).dropWhile isDig) := by
  cases cs with
  | nil => rw [List.dropWhile_nil] at h; cases h
  | cons a as =>
    have hstep := splitGo_succ_of_cons as.length (a :: as) r rs h
    have hlt := dropRun_length_lt (a :: as) r rs h
    rw [show alphanumKeyAux (a :: as) = splitGo (Nat.succ as.length) (a :: as) from rfl,
      hstep, key_eq_splitGo as.length _ (by simp only [List.length_cons] at hlt; omega)]

theorem key_nil : alphanumKeyAux [] = [PyChunk.str []] := rfl

theorem key_digit (c : Char) (cs : List Char) (h : isDig c = true) :
    alphanumKeyAux (c :: cs) =
      PyChunk.str [] ::
      PyChunk.num (natOfDigits ((c :: cs).takeWhile isDig)) ::
      alphanumKeyAux (cs.dropWhile isDig) := by
  have hd : (c :: cs).dropWhile (fun x => !(isDig x)) = c :: cs := by
    rw [List.dropWhile_cons, if_neg (by simp [h])]
  have ht : (c :: cs).takeWhile (fun x => !(isDig x)) = [] := by
    rw [List.takeWhile_cons, if_neg (by simp [h])]
  have hcd : (c :: cs).dropWhile isDig = cs.dropWhile isDig := by
    rw [List.dropWhile_cons, if_pos h]
  rw [key_of_consrest (c :: cs) c cs hd, ht, hcd]

theorem key_nondigit (c : Char) (cs : List Char) (h : isDig c = false) :
    alphanumKeyAux (c :: cs) = strCons c (alphanumKeyAux cs) := by
  have hd : (c :: cs).dropWhile (fun x => !(isDig x)) = cs.dropWhile (fun x => !(isDig x)) := by
    rw [List.dropWhile_cons, if_pos (by simp [h])]
  have ht : (c :: cs).takeWhile (fun x => !(isDig x)) =
      c :: cs.takeWhile (fun x => !(isDig x)) := by
    rw [List.takeWhile_cons, if_pos (by simp [h])]
  cases hrest : cs.dropWhile (fun x => !(isDig x)) with
  | nil =>
    rw [key_of_nilrest (c :: cs) (hd.trans hrest), ht, key_of_nilrest cs hrest]
    rfl
  | cons r rs =>
    rw [key_of_consrest (c :: cs) r rs (hd.trans hrest), ht, key_of_consrest cs r rs hrest]
    rfl

theorem key_head (cs : List Char) :
    ∃ p k, alphanumKeyAux cs = PyChunk.str p :: k := by
  cases hrest : cs.dropWhile (fun c => !(isDig c)) with
  | nil => exact ⟨_, _, key_of_nilrest cs hrest⟩
  | cons r rs => exact ⟨_, _, key_of_consrest cs r rs hrest⟩

theorem pyListLt_nil_cons (x : PyChunk) (xs : List PyChunk) :
    pyListLt [] (x :: xs) = true := rfl

theorem pyListLt_cons_nil (x : PyChunk) (xs : List PyChunk) :
    pyListLt (x :: xs) [] = false := rfl

theorem pyListLt_cons_cons (x y : PyChunk) (xs ys : List PyChunk) :
    pyListLt (x :: xs) (y :: ys) = if x = y then pyListLt xs ys else chunkLt x y := rfl

theorem pyListLt_strCons (c : Char) (px py : List Char) (kx ky : List PyChunk) :
    pyListLt (PyChunk.str (c :: px) :: kx) (PyChunk.str (c :: py) :: ky) =
      pyListLt (PyChunk.str px :: kx) (PyChunk.str py :: ky) := by
  by_cases h : px = py
  · subst h
    rw [pyListLt_cons_cons, pyListLt_cons_cons, if_pos rfl, if_pos rfl]
  · rw [pyListLt_cons_cons, pyListLt_cons_cons,
      if_neg (by simp [h]), if_neg (by simp [h])]
    show strLt (c :: px) (c :: py) = strLt px py
    rw [strLt, if_pos rfl]

theorem natGo_succ (f : Nat) (a : Char) (as : List Char) (b : Char) (bs : List Char) :
    natGo (Nat.succ f) (a :: as) (b :: bs) =
      (if isDig a then
        if isDig b then
          if natOfDigits ((a :: as).takeWhile isDig) =
              natOfDigits ((b :: bs).takeWhile isDig)
          then natGo f ((a :: as).dropWhile isDig) ((b :: bs).dropWhile isDig)
          else decide (natOfDigits ((a :: as).takeWhile isDig) <
            natOfDigits ((b :: bs).takeWhile isDig))
        else true
      else
        if isDig b then false
        else if a = b then natGo f as bs else decide (a < b)) := rfl

theorem natGo_mono : ∀ (f g : Nat) (s t : List Char),
    s.length + t.length ≤ f → s.length + t.length ≤ g → natGo f s t = natGo g s t := by
  intro f
  induction f with
  | zero =>
    intro g s t hf _
    cases s with
    | nil =>
      cases t with
      | nil => cases g <;> rfl
      | cons b bs => cases g <;> rfl
    | cons a as =>
      cases t with
      | nil => cases g <;> rfl
      | cons b bs => simp at hf
  | succ f ih =>
    intro g s t hf hg
    cases s with
    | nil =>
      cases t with
      | nil => cases g <;> rfl
      | cons b bs => cases g <;> rfl
    | cons a as =>
      cases t with
      | nil => cases g <;> rfl
      | cons b bs =>
        cases g with
        | zero => simp at hg
        | succ g =>
          rw [natGo_succ f a as b bs, natGo_succ g a as b bs]
          simp only [List.length_cons] at hf hg
          by_cases ha : isDig a = true
          · by_cases hb : isDig b = true
            · rw [if_pos ha, if_pos ha, if_pos hb, if_pos hb]
              by_cases hmn : natOfDigits ((a :: as).takeWhile isDig) =
                  natOfDigits ((b :: bs).takeWhile isDig)
              · rw [if_pos hmn, if_pos hmn]
                have hda : (a :: as).dropWhile isDig = as.dropWhile isDig := by
                  rw [List.dropWhile_cons, if_pos ha]
                have hdb : (b :: bs).dropWhile isDig = bs.dropWhile isDig := by
                  rw [List.dropWhile_cons, if_pos hb]
                have la := length_dropWhile_le isDig as
                have lb := length_dropWhile_le isDig bs
                rw [hda, hdb]
                exact ih g _ _ (by omega) (by omega)
              · rw [if_neg hmn, if_neg hmn]
            · rw [if_pos ha, if_pos ha, if_neg hb, if_neg hb]
          · rw [if_neg ha, if_neg ha]
            by_cases hb : isDig b = true
            · rw [if_pos hb, if_pos hb]
            · rw [if_neg hb, if_neg hb]
              by_cases hab : a = b
              · rw [if_pos hab, if_pos hab]
                exact ih g as bs (by omega) (by omega)
              · rw [if_neg hab, if_neg hab]

theorem natLess_nil_nil : natLessAux [] [] = false := rfl

theorem natLess_nil_cons (b : Char) (bs : List Char) :
    natLessAux [] (b :: bs) = true := rfl

theorem natLess_cons_nil (a : Char) (as : List Char) :
    natLessAux (a :: as) [] = false := rfl

theorem natLess_cons_cons (a : Char) (as : List Char) (b : Char) (bs : List Char) :
    natLessAux (a :: as) (b :: bs) =
      (if isDig a then
        if isDig b then
          if natOfDigits ((a :: as).takeWhile isDig) =
              natOfDigits ((b :: bs).takeWhile isDig)
          then natLessAux (as.dropWhile isDig) (bs.dropWhile isDig)
          else decide (natOfDigits ((a :: as).takeWhile isDig) <
            natOfDigits ((b :: bs).takeWhile isDig))
        else true
      else
        if isDig b then false
        else if a = b then natLessAux as bs else decide (a < b)) := by
  have hstep : natLessAux (a :: as) (b :: bs) =
      natGo (Nat.succ (as.length + 1 + bs.length)) (a :: as) (b :: bs) := by
    rw [natLessAux]
    exact natGo_mono _ _ _ _ (Nat.le_refl _) (by simp only [List.length_cons]; omega)
  rw [hstep, natGo_succ]
  by_cases ha : isDig a = true
  · by_cases hb : isDig b = true
    · rw [if_pos ha, if_pos ha, if_pos hb, if_pos hb]
      by_cases hmn : natOfDigits ((a :: as).takeWhile isDig) =
          natOfDigits ((b :: bs).takeWhile isDig)
      · rw [if_pos hmn, if_pos hmn]
        have hda : (a :: as).dropWhile isDig = as.dropWhile isDig := by
          rw [List.dropWhile_cons, if_pos ha]
        have hdb : (b :: bs).dropWhile isDig = bs.dropWhile isDig := by
          rw [List.dropWhile_cons, if_pos hb]
        have la := length_dropWhile_le isDig as
        have lb := length_dropWhile_le isDig bs
        rw [hda, hdb, natLessAux]
        exact natGo_mono _ _ _ _ (by omega) (by omega)
      · rw [if_neg hmn, if_neg hmn]
    · rw [if_pos ha, if_pos ha, if_neg hb, if_neg hb]
  · rw [if_neg ha, if_neg ha]
    by_cases hb : isDig b = true
    · rw [if_pos hb, if_pos hb]
    · rw [if_neg hb, if_neg hb]
      by_cases hab : a = b
      · rw [if_pos hab, if_pos hab, natLessAux]
        exact natGo_mono _ _ _ _ (by omega) (Nat.le_refl _)
      · rw [if_neg hab, if_neg hab]

theorem key_agrees_nat : ∀ (n : Nat) (s t : List Char), s.length + t.length ≤ n →
    pyListLt (alphanumKeyAux s) (alphanumKeyAux t) = natLessAux s t := by
  intro n
  induction n with
  | zero =>
    intro s t h
    have hs : s = [] := List.length_eq_zero.mp (by omega)
    have ht : t = [] := List.length_eq_zero.mp (by omega)
    subst hs; subst ht
    rfl
  | succ n ih =>
    intro s t h
    cases s with
    | nil =>
      cases t with
      | nil => rfl
      | cons b bs =>
        rw [key_nil, natLess_nil_cons]
        by_cases hb : isDig b = true
        · rw [key_digit b bs hb, pyListLt_cons_cons, if_pos rfl, pyListLt_nil_cons]
        · have hb' : isDig b = false := Bool.of_not_eq_true hb
          rw [key_nondigit b bs hb']
          obtain ⟨pb, kb, hkb⟩ := key_head bs
          rw [hkb]
          show pyListLt [PyChunk.str []] (PyChunk.str (b :: pb) :: kb) = true
          rw [pyListLt_cons_cons, if_neg (by simp)]
          rfl
    | cons a as =>
      cases t with
      | nil =>
        rw [key_nil, natLess_cons_nil]
        by_cases ha : isDig a = true
        · rw [key_digit a as ha, pyListLt_cons_cons, if_pos rfl, pyListLt_cons_nil]
        · have ha' : isDig a = false := Bool.of_not_eq_true ha
          rw [key_nondigit a as ha']
          obtain ⟨pa, ka, hka⟩ := key_head as
          rw [hka]
          show pyListLt (PyChunk.str (a :: pa) :: ka) [PyChunk.str []] = false
          rw [pyListLt_cons_cons, if_neg (by simp)]
          rfl
      | cons b bs =>
        simp only [List.length_cons] at h
        rw [natLess_cons_cons]
        by_cases ha : isDig a = true
        · by_cases hb : isDig b = true
          · rw [if_pos ha, if_pos hb, key_digit a as ha, key_digit b bs hb,
              pyListLt_cons_cons, if_pos rfl]
            by_cases hmn : natOfDigits ((a :: as).takeWhile isDig) =
                natOfDigits ((b :: bs).takeWhile isDig)
            · rw [if_pos hmn, pyListLt_cons_cons, if_pos (by rw [hmn])]
              have la := length_dropWhile_le isDig as
              have lb := length_dropWhile_le isDig bs
              exact ih _ _ (by omega)
            · rw [if_neg hmn, pyListLt_cons_cons,
                if_neg (fun hc => hmn (PyChunk.num.inj hc))]
              rfl
          · have hb' : isDig b = false := Bool.of_not_eq_true hb
            rw [if_pos ha, if_neg hb, key_digit a as ha, key_nondigit b bs hb']
            obtain ⟨pb, kb, hkb⟩ := key_head bs
            rw [hkb]
            show pyListLt (PyChunk.str [] :: _) (PyChunk.str (b :: pb) :: kb) = true
            rw [pyListLt_cons_cons, if_neg (by simp)]
            rfl
        · by_cases hb : isDig b = true
          · have ha' : isDig a = false := Bool.of_not_eq_true ha
            rw [if_neg ha, if_pos hb, key_nondigit a as ha', key_digit b bs hb]
            obtain ⟨pa, ka, hka⟩ := key_head as
            rw [hka]
            show pyListLt (PyChunk.str (a :: pa) :: ka) (PyChunk.str [] :: _) = false
            rw [pyListLt_cons_cons, if_neg (by simp)]
            rfl
          · have ha' : isDig a = false := Bool.of_not_eq_true ha
            have hb' : isDig b = false := Bool.of_not_eq_true hb
            rw [if_neg ha, if_neg hb, key_nondigit a as ha', key_nondigit b bs hb']
            obtain ⟨pa, ka, hka⟩ := key_head as
            obtain ⟨pb, kb, hkb⟩ := key_head bs
            rw [hka, hkb]
            by_cases hab : a = b
            · subst hab
              rw [if_pos rfl]
              show pyListLt (PyChunk.str (a :: pa) :: ka) (PyChunk.str (a :: pb) :: kb) = _
              rw [pyListLt_strCons, ← hka, ← hkb]
              exact ih as bs (by omega)
            · rw [if_neg hab]
              show pyListLt (PyChunk.str (a :: pa) :: ka) (PyChunk.str (b :: pb) :: kb) = _
              rw [pyListLt_cons_cons, if_neg (by simp [hab])]
              show strLt (a :: pa) (b :: pb) = decide (a < b)
              rw [strLt, if_neg hab]

/-! ## Claim theorem: the natural filename order (C8) -/

/-- C8. The order induced by sorting with key=alphanum_key agrees, on every
pair of filenames, with the independently defined natural order (maximal
numeric runs compared as integers, non-numeric chunks compared as strings);
the file sort used to assign subject indices is therefore the stable
ascending sort by that natural order; and concretely img2 sorts strictly
before img10. -/
theorem c8_alphanum_sort_is_natural_order :
    (∀ a b : String, fileLt a b = naturalLess a b)
    ∧ (∀ files : List String, pySortFiles files = pySort naturalLess files)
    ∧ fileLt "img2" "img10" = true
    ∧ fileLt "img10" "img2" = false := by
  have hpt : ∀ a b : String, fileLt a b = naturalLess a b := fun a b =>
    key_agrees_nat (a.data.length + b.data.length) a.data b.data (Nat.le_refl _)
  refine ⟨hpt, ?_, by decide, by decide⟩
  intro files
  rw [pySortFiles, show fileLt = naturalLess from
    funext (fun a => funext (fun b => hpt a b))]

/-! ## Claim theorem: mode count after a build (C10) -/

/-- C10. When a build succeeds on a training directory with N loaded
surfaces, NumEVs becomes N - 1; a subsequent fitting run copies NumEVs into
num_tuples while loading and allocates every fitted row with num_tuples
entries, so every row of the exported coefficient table has exactly N - 1
entries. The hypothesis on fitFn is the vtkFloatArray contract: the
parameter array is allocated with exactly num_tuples tuples. -/
theorem c10_row_width_is_training_count_minus_one (P M : Type)
    (B : List (Mesh P) → M) (fitFn : M → Mesh P → Nat → List Rat)
    (hfit : ∀ (m : M) (p : Mesh P) (k : Nat), (fitFn m p k).length = k)
    (st st' : PCAWidget P M) (dir fitDir : SurfaceDir P)
    (tbl : List (List Rat)) (names : List String)
    (hbuild : onComputeBuild B st dir = Except.ok st')
    (hfitres : onPCAFitting fitFn st' fitDir = Except.ok (tbl, names)) :
    tbl.all (fun r => r.length == (loadedEntries dir).length - 1) = true := by
  have hst' := onComputeBuild_ok_elim B st st' dir hbuild
  have hm : st'.pca_model = some (B ((loadedEntries dir).map Prod.snd)) := by
    rw [hst']
  obtain ⟨h1, _⟩ := onPCAFitting_ok_elim fitFn st' _ fitDir tbl names hm hfitres
  rw [List.all_eq_true]
  intro r hr
  rw [h1] at hr
  obtain ⟨e, _, hev⟩ := List.mem_map.mp hr
  rw [← hev, hfit]
  have hEV : st'.NumEVs = (loadedEntries dir).length - 1 := by rw [hst']
  rw [hEV]
  exact beq_self_eq_true _

/-- Witness for C10: a build over two training surfaces followed by a fit
over one surface yields rows of width 1. -/
theorem c10_witness :
    ([[ (0 : Rat) ]] : List (List Rat)).all
      (fun r => r.length ==
        (loadedEntries [("a1.ply", ({ points := [0], tris := [] } : Mesh Int)),
          ("a2.ply", ({ points := [5], tris := [] } : Mesh Int))]).length - 1) = true :=
  c10_row_width_is_training_count_minus_one Int Unit (fun _ => ())
    (fun _ _ k => List.replicate k (0 : Rat))
    (fun _ _ _ => List.length_replicate _ _)
    { NumEVs := 9, num_tuples := 0, pca_model := none }
    { NumEVs := 1, num_tuples := 9, pca_model := some () }
    [("a1.ply", { points := [0], tris := [] }), ("a2.ply", { points := [5], tris := [] })]
    [("f1.ply", { points := [7, 8], tris := [] })]
    [[ (0 : Rat) ]] ["f1.ply"] rfl rfl

end PCAKin
